import Mathlib

/-!
Shallow embedding of the RustRTMP repository core (AMF0 codec, chunk codec,
message queue, handshake format detection, publish handler, publisher fan-out)
together with proofs about the properties its specification states.

Bytes are modelled as `Nat` values; every place the Rust source performs a
narrowing integer cast (`as u8`, `as u16`, `as u32`) the model takes the value
modulo the corresponding power of two.  Rust `f64` fields are modelled by their
64-bit big-endian bit patterns (`f64::to_be_bytes` / `from_be_bytes` are
mutually inverse on bit patterns), and Rust `i16` by its 16-bit pattern.
Fallible Rust functions returning `Result` are modelled with `Option` or
`Except`; a `None` arising from an unchecked `u32` subtraction models the
debug-build panic (release builds wrap modulo `2^32`).
-/

namespace RustRTMP

/-! ### Big-endian / little-endian byte codecs (src/utils/buffer.rs)

`write_u16_be`, `write_u32_be`, `write_f64_be` append the big-endian bytes of
the value; `write_u32_le` order is used only for the message-stream-id field.
The `% 256` on every byte mirrors the `as u8` narrowing in the Rust shifts. -/

def be16 (n : Nat) : List Nat := [n / 2 ^ 8 % 256, n % 256]

def be24 (n : Nat) : List Nat := [n / 2 ^ 16 % 256, n / 2 ^ 8 % 256, n % 256]

def be32 (n : Nat) : List Nat :=
  [n / 2 ^ 24 % 256, n / 2 ^ 16 % 256, n / 2 ^ 8 % 256, n % 256]

def be64 (n : Nat) : List Nat :=
  [n / 2 ^ 56 % 256, n / 2 ^ 48 % 256, n / 2 ^ 40 % 256, n / 2 ^ 32 % 256,
   n / 2 ^ 24 % 256, n / 2 ^ 16 % 256, n / 2 ^ 8 % 256, n % 256]

def le32 (n : Nat) : List Nat :=
  [n % 256, n / 2 ^ 8 % 256, n / 2 ^ 16 % 256, n / 2 ^ 24 % 256]

/-- `ByteBuffer` cursor read of one byte (`read_u8`). -/
def readU8 : List Nat → Option (Nat × List Nat)
  | [] => none
  | b :: rest => some (b, rest)

/-- `ByteBuffer` cursor read of `n` bytes (`read_bytes`). -/
def readN (n : Nat) (bs : List Nat) : Option (List Nat × List Nat) :=
  if n ≤ bs.length then some (bs.take n, bs.drop n) else none

/-- `read_u16_be`. -/
def readU16 (bs : List Nat) : Option (Nat × List Nat) :=
  match readN 2 bs with
  | some ([b0, b1], rest) => some (b0 * 2 ^ 8 + b1, rest)
  | _ => none

/-- `read_u32_be`. -/
def readU32 (bs : List Nat) : Option (Nat × List Nat) :=
  match readN 4 bs with
  | some ([b0, b1, b2, b3], rest) =>
      some (b0 * 2 ^ 24 + b1 * 2 ^ 16 + b2 * 2 ^ 8 + b3, rest)
  | _ => none

/-- `read_f64_be` / `read_i16_be`, on bit patterns. -/
def readU64 (bs : List Nat) : Option (Nat × List Nat) :=
  match readN 8 bs with
  | some ([b0, b1, b2, b3, b4, b5, b6, b7], rest) =>
      some (b0 * 2 ^ 56 + b1 * 2 ^ 48 + b2 * 2 ^ 40 + b3 * 2 ^ 32 +
            b4 * 2 ^ 24 + b5 * 2 ^ 16 + b6 * 2 ^ 8 + b7, rest)
  | _ => none

/-! ### UTF-8 validity

`String::from_utf8` in the decoder fails exactly on invalid UTF-8.  The
validator below implements the standard UTF-8 acceptance table (RFC 3629):
no overlong forms, no surrogates, code points at most U+10FFFF. -/

def utf8Cont (b : Nat) : Bool := 0x80 ≤ b && b ≤ 0xBF

def utf8Valid : List Nat → Bool
  | [] => true
  | b :: rest =>
    if b ≤ 0x7F then utf8Valid rest
    else if 0xC2 ≤ b && b ≤ 0xDF then
      match rest with
      | b1 :: r => utf8Cont b1 && utf8Valid r
      | [] => false
    else if b = 0xE0 then
      match rest with
      | b1 :: b2 :: r => (0xA0 ≤ b1 && b1 ≤ 0xBF) && utf8Cont b2 && utf8Valid r
      | _ => false
    else if (0xE1 ≤ b && b ≤ 0xEC) || b = 0xEE || b = 0xEF then
      match rest with
      | b1 :: b2 :: r => utf8Cont b1 && utf8Cont b2 && utf8Valid r
      | _ => false
    else if b = 0xED then
      match rest with
      | b1 :: b2 :: r => (0x80 ≤ b1 && b1 ≤ 0x9F) && utf8Cont b2 && utf8Valid r
      | _ => false
    else if b = 0xF0 then
      match rest with
      | b1 :: b2 :: b3 :: r =>
          (0x90 ≤ b1 && b1 ≤ 0xBF) && utf8Cont b2 && utf8Cont b3 && utf8Valid r
      | _ => false
    else if 0xF1 ≤ b && b ≤ 0xF3 then
      match rest with
      | b1 :: b2 :: b3 :: r => utf8Cont b1 && utf8Cont b2 && utf8Cont b3 && utf8Valid r
      | _ => false
    else if b = 0xF4 then
      match rest with
      | b1 :: b2 :: b3 :: r =>
          (0x80 ≤ b1 && b1 ≤ 0x8F) && utf8Cont b2 && utf8Cont b3 && utf8Valid r
      | _ => false
    else false

/-- Byte list of an ASCII Lean string literal, used to write the byte strings
appearing in the source conveniently.  Only used on ASCII literals, where the
UTF-8 bytes are exactly the code points. -/
def strBytes (s : String) : List Nat := s.toList.map Char.toNat

/-! ### AMF0 value tree (src/amf/amf0.rs)

Rust `String` payloads are modelled as their UTF-8 byte lists; `f64` as its
bit pattern; `i16` as its 16-bit pattern; `HashMap<String, Amf0Value>` as an
association list in encoder-iteration order (key sets of Rust hash maps are
duplicate-free, and map equality is implied by list equality). -/

inductive Amf0Value where
  | Number (bits : Nat)
  | Boolean (b : Bool)
  | String (s : List Nat)
  | Object (props : List (List Nat × Amf0Value))
  | Null
  | Undefined
  | EcmaArray (props : List (List Nat × Amf0Value))
  | Array (elems : List Amf0Value)
  | Date (ts : Nat) (tz : Nat)
  | LongString (s : List Nat)
  | Unsupported
  | XmlDocument (s : List Nat)
  | TypedObject (cls : List Nat) (props : List (List Nat × Amf0Value))

/-! AMF0 type markers (src/amf/amf0.rs, `markers`). -/

def MARKER_NUMBER : Nat := 0x00
def MARKER_BOOLEAN : Nat := 0x01
def MARKER_STRING : Nat := 0x02
def MARKER_OBJECT : Nat := 0x03
def MARKER_NULL : Nat := 0x05
def MARKER_UNDEFINED : Nat := 0x06
def MARKER_ECMA_ARRAY : Nat := 0x08
def MARKER_OBJECT_END : Nat := 0x09
def MARKER_STRICT_ARRAY : Nat := 0x0A
def MARKER_DATE : Nat := 0x0B
def MARKER_LONG_STRING : Nat := 0x0C
def MARKER_UNSUPPORTED : Nat := 0x0D
def MARKER_XML_DOCUMENT : Nat := 0x0F
def MARKER_TYPED_OBJECT : Nat := 0x10

/-- `Amf0Value::as_string` (matches `String` and `LongString`). -/
def Amf0Value.as_string : Amf0Value → Option (List Nat)
  | .String s => some s
  | .LongString s => some s
  | _ => none

/-! ### AMF0 encoder (src/amf/encoder.rs)

`Amf0Encoder::encode` appends the bytes of one value.  String length
prefixes are written with `bytes.len() as u16` / `as u32`, hence the explicit
`% 2^16` / `% 2^32`; **all** bytes are appended regardless of the prefix. -/

mutual

def encodeVal : Amf0Value → List Nat
  | .Number bits => MARKER_NUMBER :: be64 bits
  | .Boolean b => MARKER_BOOLEAN :: [if b then 1 else 0]
  | .String s => MARKER_STRING :: (be16 (s.length % 2 ^ 16) ++ s)
  | .Object props => MARKER_OBJECT :: (encodeProps props ++ [0, 0, MARKER_OBJECT_END])
  | .Null => [MARKER_NULL]
  | .Undefined => [MARKER_UNDEFINED]
  | .EcmaArray props =>
      MARKER_ECMA_ARRAY ::
        (be32 (props.length % 2 ^ 32) ++ encodeProps props ++ [0, 0, MARKER_OBJECT_END])
  | .Array elems => MARKER_STRICT_ARRAY :: (be32 (elems.length % 2 ^ 32) ++ encodeElems elems)
  | .Date ts tz => MARKER_DATE :: (be64 ts ++ be16 (tz % 2 ^ 16))
  | .LongString s => MARKER_LONG_STRING :: (be32 (s.length % 2 ^ 32) ++ s)
  | .Unsupported => [MARKER_UNSUPPORTED]
  | .XmlDocument s => MARKER_XML_DOCUMENT :: (be32 (s.length % 2 ^ 32) ++ s)
  | .TypedObject cls props =>
      MARKER_TYPED_OBJECT ::
        (be16 (cls.length % 2 ^ 16) ++ cls ++ encodeProps props ++ [0, 0, MARKER_OBJECT_END])

/-- Property list body of `encode_object` / `encode_ecma_array` /
`encode_typed_object`: for each entry `write_string_no_marker(key)` then the
encoded value (the `00 00 09` terminator is appended by the callers). -/
def encodeProps : List (List Nat × Amf0Value) → List Nat
  | [] => []
  | (k, v) :: rest => be16 (k.length % 2 ^ 16) ++ k ++ encodeVal v ++ encodeProps rest

def encodeElems : List Amf0Value → List Nat
  | [] => []
  | v :: rest => encodeVal v ++ encodeElems rest

end

/-! ### Value well-formedness

Type-correctness side conditions of the Rust representation (`f64` bit
patterns fit 64 bits, `i16` fits 16 bits, strings are valid UTF-8), plus the
size bounds under which the length-prefix casts are lossless and property
keys cannot be confused with the object terminator. -/

mutual

def wfVal : Amf0Value → Bool
  | .Number bits => bits < 2 ^ 64
  | .Boolean _ => true
  | .String s => s.length ≤ 65535 && utf8Valid s
  | .Object props => wfProps props
  | .Null => true
  | .Undefined => true
  | .EcmaArray props => wfProps props
  | .Array elems => elems.length < 2 ^ 32 && wfElems elems
  | .Date ts tz => ts < 2 ^ 64 && tz < 2 ^ 16
  | .LongString s => s.length < 2 ^ 32 && utf8Valid s
  | .Unsupported => true
  | .XmlDocument s => s.length < 2 ^ 32 && utf8Valid s
  | .TypedObject cls props => cls.length ≤ 65535 && utf8Valid cls && wfProps props

def wfProps : List (List Nat × Amf0Value) → Bool
  | [] => true
  | (k, v) :: rest =>
      decide (k.length ≠ 0) && decide (k.length ≤ 65535) && utf8Valid k &&
        wfVal v && wfProps rest

def wfElems : List Amf0Value → Bool
  | [] => true
  | v :: rest => wfVal v && wfElems rest

end

/-- Marker set named by the round-trip sentence of the specification. -/
def claimMarker : Amf0Value → Bool
  | .Number _ => true
  | .Boolean _ => true
  | .String _ => true
  | .Object _ => true
  | .Null => true
  | .Undefined => true
  | .EcmaArray _ => true
  | .Array _ => true
  | .Date _ _ => true
  | .LongString _ => true
  | _ => false

/-! ### AMF0 decoder (src/amf/decoder.rs)

`Amf0Decoder::decode` reads one value from the cursor; the remaining bytes
are returned alongside.  The `fuel` argument is an artifact of the embedding:
every recursive call in the Rust decoder first consumes at least one byte, so
recursion depth is bounded by the input length and `decodeAmf` below supplies
`bs.length` as fuel.  Note the object-property loop reads and **ignores** the
byte after a zero key length (the source does not check it equals `09`). -/

mutual

def decodeVal : Nat → List Nat → Option (Amf0Value × List Nat)
  | 0, _ => none
  | fuel + 1, bs => do
    let (marker, r0) ← readU8 bs
    if marker = MARKER_NUMBER then do
      let (n, r) ← readU64 r0
      some (.Number n, r)
    else if marker = MARKER_BOOLEAN then do
      let (b, r) ← readU8 r0
      some (.Boolean (b ≠ 0), r)
    else if marker = MARKER_STRING then do
      let (len, r1) ← readU16 r0
      let (s, r) ← readN len r1
      if utf8Valid s then some (.String s, r) else none
    else if marker = MARKER_OBJECT then do
      let (props, r) ← decodeProps fuel r0
      some (.Object props, r)
    else if marker = MARKER_NULL then
      some (.Null, r0)
    else if marker = MARKER_UNDEFINED then
      some (.Undefined, r0)
    else if marker = MARKER_ECMA_ARRAY then do
      let (_count, r1) ← readU32 r0
      let (props, r) ← decodeProps fuel r1
      some (.EcmaArray props, r)
    else if marker = MARKER_STRICT_ARRAY then do
      let (count, r1) ← readU32 r0
      let (elems, r) ← decodeElems fuel count r1
      some (.Array elems, r)
    else if marker = MARKER_DATE then do
      let (ts, r1) ← readU64 r0
      let (tz, r) ← readU16 r1
      some (.Date ts tz, r)
    else if marker = MARKER_LONG_STRING then do
      let (len, r1) ← readU32 r0
      let (s, r) ← readN len r1
      if utf8Valid s then some (.LongString s, r) else none
    else if marker = MARKER_UNSUPPORTED then
      some (.Unsupported, r0)
    else if marker = MARKER_XML_DOCUMENT then do
      let (len, r1) ← readU32 r0
      let (s, r) ← readN len r1
      if utf8Valid s then some (.XmlDocument s, r) else none
    else if marker = MARKER_TYPED_OBJECT then do
      let (clen, r1) ← readU16 r0
      let (cls, r2) ← readN clen r1
      if utf8Valid cls then do
        let (props, r) ← decodeProps fuel r2
        some (.TypedObject cls props, r)
      else none
    else none

def decodeProps : Nat → List Nat → Option (List (List Nat × Amf0Value) × List Nat)
  | 0, _ => none
  | fuel + 1, bs => do
    let (nameLen, r0) ← readU16 bs
    if nameLen = 0 then do
      let (_endMarker, r) ← readU8 r0
      some ([], r)
    else do
      let (k, r1) ← readN nameLen r0
      if utf8Valid k then do
        let (v, r2) ← decodeVal fuel r1
        let (rest, r) ← decodeProps fuel r2
        some ((k, v) :: rest, r)
      else none

def decodeElems : Nat → Nat → List Nat → Option (List Amf0Value × List Nat)
  | 0, _, _ => none
  | _ + 1, 0, bs => some ([], bs)
  | fuel + 1, n + 1, bs => do
    let (v, r0) ← decodeVal fuel bs
    let (vs, r) ← decodeElems fuel n r0
    some (v :: vs, r)

end

/-- Entry point of `Amf0Decoder::decode`: fuel equal to the input length
suffices because every nested decode consumes at least one byte first. -/
def decodeAmf (bs : List Nat) : Option (Amf0Value × List Nat) :=
  decodeVal bs.length bs


/-- Concrete well-formed AMF0 value used to instantiate the round-trip theorem. -/
def amf0WitnessValue : Amf0Value :=
  .Object [(strBytes ("app"), .String (strBytes ("live"))),
           (strBytes ("count"), .Number 5)]

/-- A string of 65536 bytes, exceeding the u16 length-prefix range. -/
def bigString : List Nat := List.replicate 65536 97


/-! ### Protocol constants (src/protocol/constants.rs) -/

def MSG_TYPE_SET_CHUNK_SIZE : Nat := 1
def MSG_TYPE_ABORT : Nat := 2
def MSG_TYPE_ACK : Nat := 3
def MSG_TYPE_USER_CONTROL : Nat := 4
def MSG_TYPE_WINDOW_ACK : Nat := 5
def MSG_TYPE_SET_PEER_BW : Nat := 6
def MSG_TYPE_AUDIO : Nat := 8
def MSG_TYPE_VIDEO : Nat := 9
def MSG_TYPE_DATA_AMF3 : Nat := 15
def MSG_TYPE_COMMAND_AMF3 : Nat := 17
def MSG_TYPE_DATA_AMF0 : Nat := 18
def MSG_TYPE_COMMAND_AMF0 : Nat := 20
def CHUNK_STREAM_PROTOCOL : Nat := 2
def CHUNK_STREAM_COMMAND : Nat := 3
def CHUNK_STREAM_AUDIO : Nat := 4
def CHUNK_STREAM_VIDEO : Nat := 6
def CHUNK_STREAM_DATA : Nat := 8
def DEFAULT_CHUNK_SIZE : Nat := 128

/-! ### Packets and headers (src/protocol/packet.rs) -/

structure RtmpHeader where
  timestamp : Nat
  message_length : Nat
  message_type : Nat
  message_stream_id : Nat
  chunk_stream_id : Nat
deriving DecidableEq

structure RtmpPacket where
  header : RtmpHeader
  payload : List Nat
deriving DecidableEq

def RtmpHeader.new (timestamp message_length message_type message_stream_id
    chunk_stream_id : Nat) : RtmpHeader :=
  ⟨timestamp, message_length, message_type, message_stream_id, chunk_stream_id⟩

def RtmpHeader.audio (timestamp length stream_id : Nat) : RtmpHeader :=
  RtmpHeader.new timestamp length MSG_TYPE_AUDIO stream_id CHUNK_STREAM_AUDIO

def RtmpHeader.video (timestamp length stream_id : Nat) : RtmpHeader :=
  RtmpHeader.new timestamp length MSG_TYPE_VIDEO stream_id CHUNK_STREAM_VIDEO

def RtmpHeader.command (timestamp length stream_id : Nat) : RtmpHeader :=
  RtmpHeader.new timestamp length MSG_TYPE_COMMAND_AMF0 stream_id CHUNK_STREAM_COMMAND

def RtmpPacket.message_type (p : RtmpPacket) : Nat := p.header.message_type

def make_audio_packet (data : List Nat) (timestamp stream_id : Nat) : RtmpPacket :=
  ⟨RtmpHeader.audio timestamp data.length stream_id, data⟩

def make_video_packet (data : List Nat) (timestamp stream_id : Nat) : RtmpPacket :=
  ⟨RtmpHeader.video timestamp data.length stream_id, data⟩

/-! ### Message queue (src/message/queue.rs)

`MessageQueue::push` sends the priority-tagged packet into an `mpsc` channel
(a FIFO of capacity `max_size`); `MessageQueue::pop` does `try_recv` on that
same channel.  The `priority_queue : BinaryHeap<PriorityPacket>` field is
never touched by `push` or `pop`; it is carried here as dead state exactly as
in the source.  The channel is modelled as the list of in-flight packets in
send order; `push` returning `none` models the `Err("Message queue full")`. -/

structure PriorityPacket where
  packet : RtmpPacket
  priority : Nat
deriving DecidableEq

structure MessageQueue where
  channel : List PriorityPacket
  priority_queue : List PriorityPacket
  max_size : Nat
  current_size : Nat
deriving DecidableEq

def MessageQueue.new (max_size : Nat) : MessageQueue :=
  ⟨[], [], max_size, 0⟩

/-- `MessageQueue::get_priority`. -/
def MessageQueue.get_priority (packet : RtmpPacket) : Nat :=
  let msg_type := packet.message_type
  if msg_type = MSG_TYPE_SET_CHUNK_SIZE ∨ msg_type = MSG_TYPE_ABORT ∨
      msg_type = MSG_TYPE_ACK ∨ msg_type = MSG_TYPE_WINDOW_ACK ∨
      msg_type = MSG_TYPE_SET_PEER_BW then 10
  else if msg_type = MSG_TYPE_COMMAND_AMF0 ∨ msg_type = MSG_TYPE_COMMAND_AMF3 then 8
  else if msg_type = MSG_TYPE_DATA_AMF0 ∨ msg_type = MSG_TYPE_DATA_AMF3 then 5
  else if msg_type = MSG_TYPE_AUDIO then 3
  else if msg_type = MSG_TYPE_VIDEO then 2
  else 1

/-- `MessageQueue::push`. -/
def MessageQueue.push (q : MessageQueue) (packet : RtmpPacket) : Option MessageQueue :=
  if q.max_size ≤ q.current_size then none
  else some { q with
    channel := q.channel ++ [⟨packet, MessageQueue.get_priority packet⟩],
    current_size := q.current_size + 1 }

/-- `MessageQueue::pop` (successful `try_recv` branches; an empty channel
yields `none` as the popped packet). -/
def MessageQueue.pop (q : MessageQueue) : MessageQueue × Option RtmpPacket :=
  match q.channel with
  | [] => (q, none)
  | pp :: rest =>
      ({ q with channel := rest, current_size := q.current_size - 1 }, some pp.packet)

def MessageQueue.pushAll (q : MessageQueue) : List RtmpPacket → Option MessageQueue
  | [] => some q
  | p :: ps =>
      match q.push p with
      | some q2 => MessageQueue.pushAll q2 ps
      | none => none

/-! ### Chunk stream context (src/chunk/stream.rs) -/

structure ChunkStreamContext where
  prev_header : Option RtmpHeader
  message_buffer : List Nat
  bytes_remaining : Nat
  current_header : Option RtmpHeader
  timestamp_delta : Nat
deriving DecidableEq

def ChunkStreamContext.new : ChunkStreamContext :=
  ⟨none, [], 0, none, 0⟩

/-- `ChunkStreamContext::is_assembling`. -/
def ChunkStreamContext.is_assembling (c : ChunkStreamContext) : Bool :=
  decide (0 < c.bytes_remaining)

/-- `ChunkStreamContext::add_chunk_data`.  The Rust function returns
`Result<Option<RtmpPacket>>` but never the error branch, so the result is the
updated context paired with the optional completed packet. -/
def ChunkStreamContext.add_chunk_data (c : ChunkStreamContext) (data : List Nat) :
    ChunkStreamContext × Option RtmpPacket :=
  let buf := c.message_buffer ++ data
  if c.bytes_remaining ≤ data.length then
    match c.current_header with
    | some header =>
        ({ c with
            message_buffer := []
            bytes_remaining := 0
            current_header := none
            prev_header := some header },
          some ⟨header, buf⟩)
    | none => ({ c with message_buffer := buf, bytes_remaining := 0 }, none)
  else
    ({ c with message_buffer := buf, bytes_remaining := c.bytes_remaining - data.length }, none)

/-- `ChunkStreamContext::start_message`. -/
def ChunkStreamContext.start_message (c : ChunkStreamContext) (header : RtmpHeader) :
    ChunkStreamContext :=
  { c with
      current_header := some header
      prev_header := some header
      bytes_remaining := header.message_length
      message_buffer := [] }

/-- One `ChunkReader::read_chunk` step on a single chunk-stream context, after
the message header `h` has been parsed: start a new message when none is in
progress, then append the supplied chunk data. -/
def readChunkStep (c : ChunkStreamContext) (h : RtmpHeader) (data : List Nat) :
    ChunkStreamContext × Option RtmpPacket :=
  let c1 := if c.is_assembling then c else c.start_message h
  c1.add_chunk_data data

/-- Size of the chunk-data slice `read_chunk` reads for this chunk:
`min(chunk_size_in, bytes_remaining)` of the context after `start_message`. -/
def chunkDataSize (c : ChunkStreamContext) (h : RtmpHeader) (chunk_size_in : Nat) : Nat :=
  let c1 := if c.is_assembling then c else c.start_message h
  min chunk_size_in c1.bytes_remaining

/-- Invariant of a chunk-stream context between `read_chunk` calls:
`bytes_remaining` is zero exactly when no message is being assembled, and
while one is, `len(message_buffer) + bytes_remaining = message_length`. -/
def ctxInv (c : ChunkStreamContext) : Bool :=
  (decide (c.bytes_remaining = 0) = c.current_header.isNone) &&
    (match c.current_header with
     | some h => decide (c.message_buffer.length + c.bytes_remaining = h.message_length)
     | none => true)

/-- Reader runs: sequences of `read_chunk` steps from a context, each step
supplying a header and chunk data of exactly the size the reader reads
(`min(chunk_size_in, bytes_remaining)`, for this step's `chunk_size_in`),
collecting every emitted packet. -/
inductive ReaderRun : ChunkStreamContext → List RtmpPacket → ChunkStreamContext → Prop where
  | nil (c : ChunkStreamContext) : ReaderRun c [] c
  | step (c : ChunkStreamContext) (h : RtmpHeader) (chunk_size_in : Nat) (data : List Nat)
      (ps : List RtmpPacket) (c2 : ChunkStreamContext) :
      data.length = chunkDataSize c h chunk_size_in →
      ReaderRun (readChunkStep c h data).1 ps c2 →
      ReaderRun c ((readChunkStep c h data).2.toList ++ ps) c2

/-! ### Chunk writer (src/chunk/writer.rs)

`prev_headers : HashMap<u32, RtmpHeader>` is modelled as an association list;
`get_header_bytes` returns `none` exactly when the unchecked `u32`
subtraction `packet.header.timestamp - prev.timestamp` would underflow
(a panic in debug builds, a wrap modulo `2^32` in release builds). -/

structure ChunkWriter where
  prev_headers : List (Nat × RtmpHeader)
  chunk_size_out : Nat
deriving DecidableEq

def ChunkWriter.new : ChunkWriter := ⟨[], DEFAULT_CHUNK_SIZE⟩

def lookupHeader (m : List (Nat × RtmpHeader)) (cs_id : Nat) : Option RtmpHeader :=
  match m with
  | [] => none
  | (k, h) :: rest => if k = cs_id then some h else lookupHeader rest cs_id

/-- `ChunkWriter::encode_basic_header`.  The `as u8` narrowings are exact for
`cs_id ≤ 319`; the three-byte form truncates `(id >> 8)` to a byte as the
source does. -/
def encode_basic_header (fmt cs_id : Nat) : List Nat :=
  if cs_id ≤ 63 then [fmt * 64 + cs_id]
  else if cs_id ≤ 319 then [fmt * 64, cs_id - 64]
  else [fmt * 64 + 1, (cs_id - 64) % 256, (cs_id - 64) / 256 % 256]

/-- `ChunkWriter::encode_type0_header` (11 bytes, plus the 4-byte extended
timestamp when the timestamp field saturates at `0xFFFFFF`). -/
def encode_type0_header (packet : RtmpPacket) : List Nat :=
  (if 0xFFFFFF ≤ packet.header.timestamp then [0xFF, 0xFF, 0xFF]
   else be24 packet.header.timestamp) ++
  be24 packet.payload.length ++
  [packet.header.message_type] ++
  le32 packet.header.message_stream_id ++
  (if 0xFFFFFF ≤ packet.header.timestamp then be32 packet.header.timestamp else [])

/-- `ChunkWriter::encode_type1_header`. -/
def encode_type1_header (timestamp_delta : Nat) (packet : RtmpPacket) : List Nat :=
  (if 0xFFFFFF ≤ timestamp_delta then [0xFF, 0xFF, 0xFF] else be24 timestamp_delta) ++
  be24 packet.payload.length ++
  [packet.header.message_type] ++
  (if 0xFFFFFF ≤ timestamp_delta then be32 timestamp_delta else [])

/-- `ChunkWriter::encode_type2_header`. -/
def encode_type2_header (timestamp_delta : Nat) : List Nat :=
  if 0xFFFFFF ≤ timestamp_delta then [0xFF, 0xFF, 0xFF] ++ be32 timestamp_delta
  else be24 timestamp_delta

/-- `ChunkWriter::get_header_bytes`: format selection against the stored
delta base, then the header encoding.  `none` models the underflowing
`packet.timestamp - prev.timestamp`. -/
def ChunkWriter.get_header_bytes (w : ChunkWriter) (packet : RtmpPacket) :
    Option (Nat × List Nat) :=
  match lookupHeader w.prev_headers packet.header.chunk_stream_id with
  | some prev =>
    if prev.message_stream_id = packet.header.message_stream_id ∧
        prev.message_type = packet.header.message_type ∧
        prev.message_length = packet.header.message_length then
      if packet.header.timestamp = prev.timestamp then some (3, [])
      else if prev.timestamp ≤ packet.header.timestamp then
        some (2, encode_type2_header (packet.header.timestamp - prev.timestamp))
      else none
    else if prev.message_stream_id = packet.header.message_stream_id then
      if prev.timestamp ≤ packet.header.timestamp then
        some (1, encode_type1_header (packet.header.timestamp - prev.timestamp) packet)
      else none
    else some (0, encode_type0_header packet)
  | none => some (0, encode_type0_header packet)

/-- Continuation loop of `ChunkWriter::create_chunks`: while payload bytes
remain, emit a Type-3 basic header and up to `chunk_size_out` payload bytes.
The chunk size is passed as `csPred + 1` so the recursion is well founded;
`create_chunks` rejects a zero chunk size up front (the Rust expression
`(payload_len + chunk_size - 1) / chunk_size` panics there). -/
def writeChunksLoop (cs_id csPred : Nat) (remaining : List Nat) : List Nat :=
  match remaining with
  | [] => []
  | b :: rest =>
      encode_basic_header 3 cs_id ++ List.take (csPred + 1) (b :: rest) ++
        writeChunksLoop cs_id csPred (List.drop csPred rest)
termination_by remaining.length
decreasing_by simp [List.length_drop]; omega

/-- `ChunkWriter::create_chunks`. -/
def ChunkWriter.create_chunks (w : ChunkWriter) (packet : RtmpPacket) : Option (List Nat) :=
  if w.chunk_size_out = 0 then none
  else
    (w.get_header_bytes packet).map fun fh =>
      encode_basic_header fh.1 packet.header.chunk_stream_id ++ fh.2 ++
        List.take w.chunk_size_out packet.payload ++
        writeChunksLoop packet.header.chunk_stream_id (w.chunk_size_out - 1)
          (List.drop w.chunk_size_out packet.payload)

/-- Format selection exactly as the specification words it: the tightest
format consistent with the delta base (Type 3 on a full match, Type 2 when
only the timestamp differs, Type 1 when the stream id matches, else Type 0). -/
def fmtSpec (base : Option RtmpHeader) (h : RtmpHeader) : Nat :=
  match base with
  | none => 0
  | some prev =>
    if prev.message_stream_id = h.message_stream_id ∧
        prev.message_type = h.message_type ∧
        prev.message_length = h.message_length ∧
        prev.timestamp = h.timestamp then 3
    else if prev.message_stream_id = h.message_stream_id ∧
        prev.message_type = h.message_type ∧
        prev.message_length = h.message_length then 2
    else if prev.message_stream_id = h.message_stream_id then 1
    else 0

/-- Specification-side chunking of a byte list into consecutive slices of at
most `csPred + 1` bytes, used to state what the continuation chunks carry. -/
def chunksOfSpec (csPred : Nat) (l : List Nat) : List (List Nat) :=
  match l with
  | [] => []
  | b :: rest => List.take (csPred + 1) (b :: rest) :: chunksOfSpec csPred (List.drop csPred rest)
termination_by l.length
decreasing_by simp [List.length_drop]; omega

/-! ### Handshake C0/C1 (src/handshake/c0c1.rs) -/

inductive HandshakeFormat where
  | Simple
  | Format1
  | Format2
deriving DecidableEq

def RTMP_VERSION : Nat := 3

def HANDSHAKE_SIZE : Nat := 1536

/-- `FMS_VERSION: [u8; 4] = [0x05, 0x00, 0x01, 0x01]`. -/
def FMS_VERSION : List Nat := [0x05, 0x00, 0x01, 0x01]

/-- `C0C1`: version byte plus the C1 fields as parsed — a u32 timestamp, a
u32 zero field, then the remaining 1528 bytes (`random_data`). -/
structure C0C1 where
  version : Nat
  timestamp : Nat
  zero : Nat
  random_data : List Nat
deriving DecidableEq

/-- `C0C1::detect_format`: the signature is looked for at the start of
`random_data` (guarded by `len > 4`) and at `random_data[764..768]` (guarded
by `len > 768 + 4`). -/
def C0C1.detect_format (c : C0C1) : HandshakeFormat :=
  if 4 < c.random_data.length ∧ List.take 4 c.random_data = FMS_VERSION then
    HandshakeFormat.Format1
  else if 768 + 4 < c.random_data.length ∧
      List.take 4 (List.drop 764 c.random_data) = FMS_VERSION then
    HandshakeFormat.Format2
  else HandshakeFormat.Simple

/-- The 1536 bytes of C1 as they appear on the wire: big-endian timestamp,
big-endian zero field, then the random field. -/
def c1Body (c : C0C1) : List Nat :=
  be32 c.timestamp ++ be32 c.zero ++ c.random_data

/-- Digest classification exactly as the specification words it: the
signature at bytes 4..8 of C1's body, or the same bytes at offset 764 of the
body. -/
def claimDigestClassification (c : C0C1) : Bool :=
  decide (List.take 4 (List.drop 4 (c1Body c)) = FMS_VERSION) ||
    decide (List.take 4 (List.drop 764 (c1Body c)) = FMS_VERSION)

/-! ### GOP cache (src/stream/gop_cache.rs) -/

structure GopCache where
  max_gops : Nat
  current_gop : List RtmpPacket
  cached_gops : List (List RtmpPacket)
  total_packets : Nat
deriving DecidableEq

def GopCache.new (max_gops : Nat) : GopCache := ⟨max_gops, [], [], 0⟩

/-- `GopCache::finish_current_gop` (eviction loop flattened to one `drop`;
`cached_gops` can exceed `max_gops` by at most one element here). -/
def GopCache.finish_current_gop (g : GopCache) : GopCache :=
  if g.current_gop = [] then g
  else
    let appended := g.cached_gops ++ [g.current_gop]
    let evicted := if g.max_gops < appended.length then appended.drop 1 else appended
    let removed := if g.max_gops < appended.length then (appended.head?.getD []).length else 0
    { g with
        current_gop := []
        cached_gops := evicted
        total_packets := g.total_packets - removed }

/-- `GopCache::add_keyframe`. -/
def GopCache.add_keyframe (g : GopCache) (packet : RtmpPacket) : GopCache :=
  let g1 := if g.current_gop ≠ [] then g.finish_current_gop else g
  { g1 with current_gop := g1.current_gop ++ [packet], total_packets := g1.total_packets + 1 }

/-- `GopCache::add_frame`. -/
def GopCache.add_frame (g : GopCache) (packet : RtmpPacket) : GopCache :=
  if g.current_gop ≠ [] then
    { g with current_gop := g.current_gop ++ [packet], total_packets := g.total_packets + 1 }
  else g

/-- `GopCache::get_gop`. -/
def GopCache.get_gop (g : GopCache) : List RtmpPacket :=
  g.cached_gops.flatten ++ g.current_gop

/-! ### Publisher fan-out (src/stream/publisher.rs) -/

structure SubscriberHandle where
  id : String
  stream_id : Nat
deriving DecidableEq

structure PublisherState where
  subscribers : List SubscriberHandle
  audio_codec_config : Option (List Nat)
  video_codec_config : Option (List Nat)
  metadata_packet : Option RtmpPacket
  gop_cache : GopCache
deriving DecidableEq

def is_keyframe (data : List Nat) : Bool :=
  match data with
  | b0 :: _ :: _ => decide (b0 / 16 % 16 = 1)
  | _ => false

def is_aac_sequence_header (data : List Nat) : Bool :=
  match data with
  | b0 :: b1 :: _ => decide (b0 / 16 % 16 = 10) && decide (b1 = 0)
  | _ => false

def is_avc_sequence_header (data : List Nat) : Bool :=
  match data with
  | b0 :: b1 :: _ => decide (b0 % 16 = 7) && decide (b1 = 0)
  | _ => false

/-- Re-header a packet for one subscriber: only `message_stream_id` is
replaced (`p.header.message_stream_id = subscriber.stream_id` in the source). -/
def setMessageStreamId (p : RtmpPacket) (stream_id : Nat) : RtmpPacket :=
  { p with header := { p.header with message_stream_id := stream_id } }

/-- `Publisher::distribute_packet`: the packet placed in each subscriber's
channel (send failures only remove subscribers and do not alter the copies). -/
def distribute_packet (subs : List SubscriberHandle) (packet : RtmpPacket) :
    List RtmpPacket :=
  subs.map fun s => setMessageStreamId packet s.stream_id

/-- `Publisher::send_initial_packets`: cached metadata re-headered, then the
audio and video codec configs re-packetised via `make_audio_packet` /
`make_video_packet` with timestamp 0, then the GOP cache re-headered. -/
def send_initial_packets (p : PublisherState) (stream_id : Nat) : List RtmpPacket :=
  (match p.metadata_packet with
   | some m => [setMessageStreamId m stream_id]
   | none => []) ++
  (match p.audio_codec_config with
   | some config => [make_audio_packet config 0 stream_id]
   | none => []) ++
  (match p.video_codec_config with
   | some config => [make_video_packet config 0 stream_id]
   | none => []) ++
  (p.gop_cache.get_gop.map fun q => setMessageStreamId q stream_id)

/-- `Publisher::process_video`, restricted to its state effects: capture the
AVC sequence header and feed the GOP cache (statistics and the subsequent
`distribute_packet` call are modelled separately). -/
def process_video_state (p : PublisherState) (packet : RtmpPacket) : PublisherState :=
  let p1 := if is_avc_sequence_header packet.payload then
      { p with video_codec_config := some packet.payload }
    else p
  if is_keyframe packet.payload then
    { p1 with gop_cache := p1.gop_cache.add_keyframe packet }
  else
    { p1 with gop_cache := p1.gop_cache.add_frame packet }

/-! ### Errors (src/utils/error.rs)

Only the variants the modelled code paths construct.  Message payloads carry
the byte text built by the corresponding `format!` call, with the two
quotation characters around the stream name elided. -/

inductive Error where
  | Protocol (msg : List Nat)
  | Stream (msg : List Nat)
deriving DecidableEq

/-- Message of `Error::stream(format!("Stream '{}' is already being published",
stream_name))`. -/
def alreadyPublishedMsg (stream_name : List Nat) : List Nat :=
  strBytes ("Stream ") ++ stream_name ++ strBytes (" is already being published")

/-! ### Publisher registry (src/server/registry.rs) -/

structure PublisherInfo where
  connection_id : String
  stream_name : List Nat
  stream_id : Nat
  started_at : Nat
  subscriber_count : Nat
deriving DecidableEq

structure PublisherRegistry where
  publishers : List (List Nat × PublisherInfo)
deriving DecidableEq

def lookupPublisher (m : List (List Nat × PublisherInfo)) (name : List Nat) :
    Option PublisherInfo :=
  match m with
  | [] => none
  | (k, v) :: rest => if k = name then some v else lookupPublisher rest name

/-- `PublisherRegistry::is_publishing` (`contains_key`). -/
def PublisherRegistry.is_publishing (r : PublisherRegistry) (stream_name : List Nat) : Bool :=
  (lookupPublisher r.publishers stream_name).isSome

/-- `PublisherRegistry::register`; `now` stands for `current_timestamp()`. -/
def PublisherRegistry.register (r : PublisherRegistry) (stream_name : List Nat)
    (connection_id : String) (stream_id : Nat) (now : Nat) : Except Error PublisherRegistry :=
  if r.is_publishing stream_name then
    Except.error (Error.Stream (alreadyPublishedMsg stream_name))
  else
    Except.ok ⟨(stream_name, ⟨connection_id, stream_name, stream_id, now, 0⟩) :: r.publishers⟩

/-! ### Commands (src/protocol/command.rs)

`transaction_id : f64` is carried as its bit pattern; the commands built by
the modelled paths all use transaction id `0.0`, whose bit pattern is `0`. -/

structure RtmpCommand where
  name : List Nat
  transaction_id : Nat
  command_object : Option Amf0Value
  arguments : List Amf0Value

/-- `RtmpCommand::on_status` (the `info` map in insertion order
`level`, `code`, `description`). -/
def RtmpCommand.on_status (level code description : List Nat) : RtmpCommand :=
  { name := strBytes ("onStatus")
    transaction_id := 0
    command_object := some Amf0Value.Null
    arguments := [Amf0Value.Object
      [(strBytes ("level"), Amf0Value.String level),
       (strBytes ("code"), Amf0Value.String code),
       (strBytes ("description"), Amf0Value.String description)]] }

/-- `RtmpCommand::encode` (never fails; the `Result` wrapper is dropped). -/
def RtmpCommand.encode (c : RtmpCommand) : List Nat :=
  encodeVal (Amf0Value.String c.name) ++ encodeVal (Amf0Value.Number c.transaction_id) ++
    (match c.command_object with
     | some obj => encodeVal obj
     | none => encodeVal Amf0Value.Null) ++
    (c.arguments.map encodeVal).flatten

/-! ### Connection context (src/connection/context.rs)

`properties : HashMap<String, String>` keeps byte-string keys and values;
insertion is modelled by cons and lookup returns the most recent binding.
`registry` is the result of `get_publisher_registry()` (the shipped
`ConnectionContext` returns `None` there).  `sent` records the packets passed
to `send_packet`, in order. -/

structure ConnectionContext where
  connection_id : String
  properties : List (List Nat × List Nat)
  registry : Option PublisherRegistry
  sent : List RtmpPacket
deriving DecidableEq

def lookupProperty (m : List (List Nat × List Nat)) (key : List Nat) : Option (List Nat) :=
  match m with
  | [] => none
  | (k, v) :: rest => if k = key then some v else lookupProperty rest key

def ConnectionContext.get_property (c : ConnectionContext) (key : List Nat) :
    Option (List Nat) :=
  lookupProperty c.properties key

def ConnectionContext.set_property (c : ConnectionContext) (key value : List Nat) :
    ConnectionContext :=
  { c with properties := (key, value) :: c.properties }

def ConnectionContext.send_packet (c : ConnectionContext) (p : RtmpPacket) :
    ConnectionContext :=
  { c with sent := c.sent ++ [p] }

/-- `str::parse::<u32>` on the byte text: all decimal digits, nonempty, and
the value fits in 32 bits. -/
def parseU32 (s : List Nat) : Option Nat :=
  if s ≠ [] ∧ s.all (fun b => 48 ≤ b ∧ b ≤ 57) then
    let n := s.foldl (fun acc b => acc * 10 + (b - 48)) 0
    if n < 2 ^ 32 then some n else none
  else none

/-! ### Publish handler (src/handlers/publish.rs) -/

/-- `create_stream_begin_packet`. -/
def create_stream_begin_packet (stream_id : Nat) : RtmpPacket :=
  let payload := [0x00, 0x00] ++ be32 stream_id
  ⟨RtmpHeader.new 0 payload.length MSG_TYPE_USER_CONTROL 0 CHUNK_STREAM_PROTOCOL, payload⟩

/-- `PublishHandler::create_publish_status`. -/
def create_publish_status (stream_name : List Nat) (stream_id : Nat) : RtmpPacket :=
  let status := RtmpCommand.on_status (strBytes ("status"))
    (strBytes ("NetStream.Publish.Start"))
    (stream_name ++ strBytes (" is now published"))
  let bytes := status.encode
  ⟨RtmpHeader.command 0 bytes.length stream_id, bytes⟩

/-- `PublishHandler::validate_publish`. -/
def validate_publish (stream_name : List Nat) (ctx : ConnectionContext) : Except Error Unit :=
  match ctx.registry with
  | some registry =>
      if registry.is_publishing stream_name then
        Except.error (Error.Stream (alreadyPublishedMsg stream_name))
      else Except.ok ()
  | none => Except.ok ()

/-- `PublishHandler::handle`.  Returns the handler outcome (the optional
response packet, or the propagated error) together with the context as
mutated up to the point of return; `now` stands for `current_timestamp()`. -/
def publishHandle (command : RtmpCommand) (ctx : ConnectionContext) (now : Nat) :
    Except Error (Option RtmpPacket) × ConnectionContext :=
  match (command.arguments.get? 0).bind Amf0Value.as_string with
  | none => (Except.error (Error.Protocol (strBytes ("Missing stream name"))), ctx)
  | some stream_name =>
    let publish_type := ((command.arguments.get? 1).bind Amf0Value.as_string).getD
      (strBytes ("live"))
    match (ctx.get_property (strBytes ("stream_id"))).bind parseU32 with
    | none => (Except.error (Error.Protocol (strBytes ("No stream ID"))), ctx)
    | some stream_id =>
      match validate_publish stream_name ctx with
      | Except.error e => (Except.error e, ctx)
      | Except.ok _ =>
        let step : Except Error ConnectionContext :=
          match ctx.registry with
          | some registry =>
              match registry.register stream_name ctx.connection_id stream_id now with
              | Except.ok registry2 => Except.ok { ctx with registry := some registry2 }
              | Except.error e => Except.error e
          | none => Except.ok ctx
        match step with
        | Except.error e => (Except.error e, ctx)
        | Except.ok ctx1 =>
          let ctx2 := ((ctx1.set_property (strBytes ("publishing")) (strBytes ("true"))
            ).set_property (strBytes ("stream_name")) stream_name
            ).set_property (strBytes ("publish_type")) publish_type
          let ctx3 := ctx2.send_packet (create_stream_begin_packet stream_id)
          (Except.ok (some (create_publish_status stream_name stream_id)), ctx3)

/-! ### Concrete values used to instantiate the theorems -/

def videoPacketEx : RtmpPacket := make_video_packet [1, 2, 3] 1000 1

def audioPacketEx : RtmpPacket := make_audio_packet [4, 5, 6] 2000 1

/-- A SetChunkSize control message (type 1, csid 2, stream 0). -/
def controlPacketEx : RtmpPacket :=
  ⟨RtmpHeader.new 0 4 MSG_TYPE_SET_CHUNK_SIZE 0 CHUNK_STREAM_PROTOCOL, [0, 0, 16, 0]⟩

/-- An AMF0 data message packet. -/
def dataPacketEx : RtmpPacket :=
  ⟨RtmpHeader.new 0 3 MSG_TYPE_DATA_AMF0 1 CHUNK_STREAM_DATA, [5, 5, 5]⟩

/-- A `publish("cam1", "live")` command. -/
def publishCmdEx : RtmpCommand :=
  { name := strBytes ("publish")
    transaction_id := 0
    command_object := some Amf0Value.Null
    arguments := [Amf0Value.String (strBytes ("cam1")),
                  Amf0Value.String (strBytes ("live"))] }

/-- A context whose registry already owns stream `cam1` and whose
`stream_id` property is `1`. -/
def ctxOwningCam1 : ConnectionContext :=
  { connection_id := "conn-1"
    properties := [(strBytes ("stream_id"), strBytes ("1"))]
    registry := some ⟨[(strBytes ("cam1"),
      { connection_id := "conn-0"
        stream_name := strBytes ("cam1")
        stream_id := 1
        started_at := 0
        subscriber_count := 0 })]⟩
    sent := [] }

/-- Header of a 5-byte video message for the reader-run witness. -/
def headerLen5Ex : RtmpHeader := RtmpHeader.new 40 5 MSG_TYPE_VIDEO 1 6

/-- Writer whose delta base for csid 6 matches `pkt5ex` in stream id, type
and length but not timestamp. -/
def writer5Ex : ChunkWriter :=
  ⟨[(6, RtmpHeader.new 1000 3 MSG_TYPE_VIDEO 1 6)], DEFAULT_CHUNK_SIZE⟩

def pkt5Ex : RtmpPacket := ⟨RtmpHeader.new 1040 3 MSG_TYPE_VIDEO 1 6, [9, 9, 9]⟩

/-- Fresh writer with chunk size 128 for the extended-timestamp example. -/
def writer6Ex : ChunkWriter := ⟨[], 128⟩

/-- A 130-byte video packet with timestamp `0x01000000` (extended). -/
def pkt6Ex : RtmpPacket :=
  ⟨RtmpHeader.new 0x01000000 130 MSG_TYPE_VIDEO 1 6, List.replicate 130 7⟩

/-- Writer whose base for csid 6 has a strictly larger timestamp than
`pkt9ex` on the same message stream (delta-base subtraction underflows). -/
def writer9Ex : ChunkWriter :=
  ⟨[(6, RtmpHeader.new 100 3 MSG_TYPE_VIDEO 1 6)], DEFAULT_CHUNK_SIZE⟩

def pkt9Ex : RtmpPacket := ⟨RtmpHeader.new 50 3 MSG_TYPE_VIDEO 1 6, [9, 9, 9]⟩

/-- An AVC sequence-header video packet (frame type 1, codec id 7,
AVCPacketType 0) with nonzero timestamp 100 on csid 9. -/
def seqHeaderPacketEx : RtmpPacket :=
  ⟨RtmpHeader.new 100 2 MSG_TYPE_VIDEO 1 9, [0x17, 0x00]⟩

/-- Publisher with no cached state and one subscriber with stream id 7. -/
def emptyPublisherEx : PublisherState :=
  { subscribers := [⟨"sub-1", 7⟩]
    audio_codec_config := none
    video_codec_config := none
    metadata_packet := none
    gop_cache := GopCache.new 2 }

/-- A C1 whose body carries the FMS signature at bytes 4..8 (the `zero`
field) and zeros in the random field. -/
def c1SignatureAtBody4 : C0C1 :=
  { version := 3
    timestamp := 0
    zero := 0x05000101
    random_data := List.replicate 1528 0 }

/-- A C1 whose random field starts with the FMS signature. -/
def c1SignatureAtRandom0 : C0C1 :=
  { version := 3
    timestamp := 0
    zero := 0
    random_data := FMS_VERSION ++ List.replicate 1524 0 }

/-! # Theorems -/

/-! ### Byte codec lemmas -/

theorem readN_exact (xs rest : List Nat) : readN xs.length (xs ++ rest) = some (xs, rest) := by
  simp [readN, List.take_left, List.drop_left]

theorem readU16_be16 (v : Nat) (h : v < 2 ^ 16) (rest : List Nat) :
    readU16 (be16 v ++ rest) = some (v, rest) := by
  simp [be16, readU16, readN, List.take, List.drop]
  omega

theorem readU32_be32 (v : Nat) (h : v < 2 ^ 32) (rest : List Nat) :
    readU32 (be32 v ++ rest) = some (v, rest) := by
  simp [be32, readU32, readN, List.take, List.drop]
  omega

theorem readU64_be64 (v : Nat) (h : v < 2 ^ 64) (rest : List Nat) :
    readU64 (be64 v ++ rest) = some (v, rest) := by
  simp [be64, readU64, readN, List.take, List.drop]
  omega

theorem encodeVal_length_pos (v : Amf0Value) : 1 ≤ (encodeVal v).length := by
  cases v <;> simp [encodeVal]

/-! ### AMF0 round trip -/

theorem decode_encode_aux (fuel : Nat) :
    (∀ v rest, wfVal v = true → (encodeVal v).length ≤ fuel →
      decodeVal fuel (encodeVal v ++ rest) = some (v, rest)) ∧
    (∀ props rest, wfProps props = true → (encodeProps props).length + 3 ≤ fuel →
      decodeProps fuel (encodeProps props ++ (0 :: 0 :: MARKER_OBJECT_END :: rest)) =
        some (props, rest)) ∧
    (∀ elems rest, wfElems elems = true → (encodeElems elems).length + 1 ≤ fuel →
      decodeElems fuel elems.length (encodeElems elems ++ rest) = some (elems, rest)) := by
  induction fuel with
  | zero =>
    refine ⟨fun v rest _ hlen => absurd hlen ?_, fun props rest _ hlen => absurd hlen (by omega),
      fun elems rest _ hlen => absurd hlen (by omega)⟩
    have := encodeVal_length_pos v
    omega
  | succ fuel ih =>
    obtain ⟨ihV, ihP, ihE⟩ := ih
    refine ⟨?_, ?_, ?_⟩
    · intro v rest hwf hlen
      cases v with
      | Number bits =>
        simp only [wfVal, decide_eq_true_eq] at hwf
        simp [encodeVal, decodeVal, readU8, MARKER_NUMBER, readU64_be64 bits hwf,
          List.append_assoc]
      | Boolean b =>
        cases b <;>
          simp [encodeVal, decodeVal, readU8, MARKER_NUMBER, MARKER_BOOLEAN]
      | String s =>
        simp only [wfVal, Bool.and_eq_true, decide_eq_true_eq] at hwf
        obtain ⟨hle, hutf⟩ := hwf
        have hmod : s.length % 65536 = s.length := Nat.mod_eq_of_lt (by omega)
        simp [encodeVal, decodeVal, readU8, MARKER_NUMBER, MARKER_BOOLEAN, MARKER_STRING, hmod,
          readU16_be16 s.length (by omega), readN_exact, hutf, List.append_assoc]
      | Object props =>
        simp only [wfVal] at hwf
        have hlen2 : (encodeProps props).length + 3 ≤ fuel := by
          simp [encodeVal] at hlen; omega
        have hQ := ihP props rest hwf hlen2
        simp [encodeVal, decodeVal, readU8, MARKER_NUMBER, MARKER_BOOLEAN, MARKER_STRING,
          MARKER_OBJECT, List.append_assoc, hQ]
      | Null =>
        simp [encodeVal, decodeVal, readU8, MARKER_NUMBER, MARKER_BOOLEAN, MARKER_STRING,
          MARKER_OBJECT, MARKER_NULL]
      | Undefined =>
        simp [encodeVal, decodeVal, readU8, MARKER_NUMBER, MARKER_BOOLEAN, MARKER_STRING,
          MARKER_OBJECT, MARKER_NULL, MARKER_UNDEFINED]
      | EcmaArray props =>
        simp only [wfVal] at hwf
        have hlen2 : (encodeProps props).length + 3 ≤ fuel := by
          simp [encodeVal, be32] at hlen; omega
        have hQ := ihP props rest hwf hlen2
        have hcnt : props.length % 4294967296 < 2 ^ 32 := by omega
        simp [encodeVal, decodeVal, readU8, MARKER_NUMBER, MARKER_BOOLEAN, MARKER_STRING,
          MARKER_OBJECT, MARKER_NULL, MARKER_UNDEFINED, MARKER_ECMA_ARRAY,
          readU32_be32 _ hcnt, List.append_assoc, hQ]
      | Array elems =>
        simp only [wfVal, Bool.and_eq_true, decide_eq_true_eq] at hwf
        obtain ⟨hcnt, hwfe⟩ := hwf
        have hmod : elems.length % 4294967296 = elems.length := Nat.mod_eq_of_lt (by omega)
        have hlen2 : (encodeElems elems).length + 1 ≤ fuel := by
          simp [encodeVal, be32] at hlen; omega
        have hE := ihE elems rest hwfe hlen2
        simp [encodeVal, decodeVal, readU8, MARKER_NUMBER, MARKER_BOOLEAN, MARKER_STRING,
          MARKER_OBJECT, MARKER_NULL, MARKER_UNDEFINED, MARKER_ECMA_ARRAY, MARKER_STRICT_ARRAY,
          hmod, readU32_be32 elems.length (by omega), List.append_assoc, hE]
      | Date ts tz =>
        simp only [wfVal, Bool.and_eq_true, decide_eq_true_eq] at hwf
        obtain ⟨hts, htz⟩ := hwf
        have hmod : tz % 65536 = tz := Nat.mod_eq_of_lt (by omega)
        simp [encodeVal, decodeVal, readU8, MARKER_NUMBER, MARKER_BOOLEAN, MARKER_STRING,
          MARKER_OBJECT, MARKER_NULL, MARKER_UNDEFINED, MARKER_ECMA_ARRAY, MARKER_STRICT_ARRAY,
          MARKER_DATE, hmod, readU64_be64 ts hts, readU16_be16 tz (by omega), List.append_assoc]
      | LongString s =>
        simp only [wfVal, Bool.and_eq_true, decide_eq_true_eq] at hwf
        obtain ⟨hle, hutf⟩ := hwf
        have hmod : s.length % 4294967296 = s.length := Nat.mod_eq_of_lt (by omega)
        simp [encodeVal, decodeVal, readU8, MARKER_NUMBER, MARKER_BOOLEAN, MARKER_STRING,
          MARKER_OBJECT, MARKER_NULL, MARKER_UNDEFINED, MARKER_ECMA_ARRAY, MARKER_STRICT_ARRAY,
          MARKER_DATE, MARKER_LONG_STRING, hmod, readU32_be32 s.length (by omega), readN_exact,
          hutf, List.append_assoc]
      | Unsupported =>
        simp [encodeVal, decodeVal, readU8, MARKER_NUMBER, MARKER_BOOLEAN, MARKER_STRING,
          MARKER_OBJECT, MARKER_NULL, MARKER_UNDEFINED, MARKER_ECMA_ARRAY, MARKER_STRICT_ARRAY,
          MARKER_DATE, MARKER_LONG_STRING, MARKER_UNSUPPORTED]
      | XmlDocument s =>
        simp only [wfVal, Bool.and_eq_true, decide_eq_true_eq] at hwf
        obtain ⟨hle, hutf⟩ := hwf
        have hmod : s.length % 4294967296 = s.length := Nat.mod_eq_of_lt (by omega)
        simp [encodeVal, decodeVal, readU8, MARKER_NUMBER, MARKER_BOOLEAN, MARKER_STRING,
          MARKER_OBJECT, MARKER_NULL, MARKER_UNDEFINED, MARKER_ECMA_ARRAY, MARKER_STRICT_ARRAY,
          MARKER_DATE, MARKER_LONG_STRING, MARKER_UNSUPPORTED, MARKER_XML_DOCUMENT, hmod,
          readU32_be32 s.length (by omega), readN_exact, hutf, List.append_assoc]
      | TypedObject cls props =>
        simp only [wfVal, Bool.and_eq_true, decide_eq_true_eq] at hwf
        obtain ⟨⟨hcls, hcutf⟩, hwfp⟩ := hwf
        have hmod : cls.length % 65536 = cls.length := Nat.mod_eq_of_lt (by omega)
        have hlen2 : (encodeProps props).length + 3 ≤ fuel := by
          simp [encodeVal, be16] at hlen; omega
        have hQ := ihP props rest hwfp hlen2
        simp [encodeVal, decodeVal, readU8, MARKER_NUMBER, MARKER_BOOLEAN, MARKER_STRING,
          MARKER_OBJECT, MARKER_NULL, MARKER_UNDEFINED, MARKER_ECMA_ARRAY, MARKER_STRICT_ARRAY,
          MARKER_DATE, MARKER_LONG_STRING, MARKER_UNSUPPORTED, MARKER_XML_DOCUMENT,
          MARKER_TYPED_OBJECT, hmod, readU16_be16 cls.length (by omega), readN_exact, hcutf,
          List.append_assoc, hQ]
    · intro props rest hwf hlen
      revert hwf hlen
      cases props with
      | nil =>
        intro hwf hlen
        simp [encodeProps, decodeProps, readU16, readN, List.take, List.drop, readU8]
      | cons kv tl =>
        obtain ⟨k, v⟩ := kv
        intro hwf hlen
        simp only [wfProps, Bool.and_eq_true, decide_eq_true_eq] at hwf
        obtain ⟨⟨⟨⟨hk0, hk65⟩, hkutf⟩, hv⟩, htl⟩ := hwf
        have hmodk : k.length % 65536 = k.length := Nat.mod_eq_of_lt (by omega)
        have hlenV : (encodeVal v).length ≤ fuel := by
          simp [encodeProps, be16] at hlen; omega
        have hlenQ : (encodeProps tl).length + 3 ≤ fuel := by
          have := encodeVal_length_pos v
          simp [encodeProps, be16] at hlen; omega
        have hV := ihV v (encodeProps tl ++ (0 :: 0 :: MARKER_OBJECT_END :: rest)) hv hlenV
        have hQ := ihP tl rest htl hlenQ
        simp [encodeProps, decodeProps, readU16_be16 k.length (by omega), hmodk, hk0,
          readN_exact, hkutf, List.append_assoc, hV, hQ]
    · intro elems rest hwf hlen
      revert hwf hlen
      cases elems with
      | nil =>
        intro hwf hlen
        simp [encodeElems, decodeElems]
      | cons v tl =>
        intro hwf hlen
        simp only [wfElems, Bool.and_eq_true] at hwf
        obtain ⟨hv, htl⟩ := hwf
        have hlenV : (encodeVal v).length ≤ fuel := by
          simp [encodeElems] at hlen; omega
        have hlenE : (encodeElems tl).length + 1 ≤ fuel := by
          have := encodeVal_length_pos v
          simp [encodeElems] at hlen; omega
        have hV := ihV v (encodeElems tl ++ rest) hv hlenV
        have hE := ihE tl rest htl hlenE
        simp [encodeElems, decodeElems, List.append_assoc, hV, hE]

/-- Claim C4 (amended): decoding the encoder's output returns the original
AMF0 value (with no bytes left over) for every value — in particular every
value whose marker is in the claimed set — provided every `String` is at most
65535 bytes of valid UTF-8, every `LongString` and XML body is under `2^32`
bytes of valid UTF-8, every object property key is nonempty valid UTF-8 of at
most 65535 bytes, every strict array has fewer than `2^32` elements, and the
numeric bit patterns fit their Rust widths. -/
theorem amf0_roundtrip (v : Amf0Value) (_hm : claimMarker v = true) (hwf : wfVal v = true) :
    decodeAmf (encodeVal v) = some (v, []) := by
  have h := (decode_encode_aux (encodeVal v).length).1 v [] hwf le_rfl
  simpa [decodeAmf] using h

/-- Witness for `amf0_roundtrip` at a concrete object value. -/
theorem amf0_roundtrip_witness :
    claimMarker amf0WitnessValue = true ∧ wfVal amf0WitnessValue = true ∧
      decodeAmf (encodeVal amf0WitnessValue) = some (amf0WitnessValue, []) :=
  ⟨rfl, rfl, amf0_roundtrip amf0WitnessValue rfl rfl⟩

/-- Claim C4, counterexample to the claim as stated: the object with a single
empty property key is in the claimed marker set, but its encoding decodes to
the empty object (the decoder takes the zero key length for the terminator),
with the real terminator left over. -/
theorem amf0_roundtrip_counterexample :
    claimMarker (Amf0Value.Object [([], Amf0Value.Null)]) = true ∧
      decodeAmf (encodeVal (Amf0Value.Object [([], Amf0Value.Null)])) =
        some (Amf0Value.Object [], [0, 0, 9]) ∧
      Amf0Value.Object [] ≠ Amf0Value.Object [([], Amf0Value.Null)] :=
  ⟨rfl, rfl, by simp⟩

/-- Claim C10: for a string longer than 65535 bytes the encoder writes the
u16 length prefix reduced modulo `2^16` while still appending all of the
bytes, and the output no longer decodes to the original value. -/
theorem amf0_string_overflow (s : List Nat) (h : 65535 < s.length) :
    encodeVal (.String s) = MARKER_STRING :: (be16 (s.length % 2 ^ 16) ++ s) ∧
      s.length % 2 ^ 16 ≠ s.length ∧
      Option.map Prod.fst (decodeAmf (encodeVal (.String s))) ≠ some (.String s) := by
  refine ⟨by simp [encodeVal], by omega, ?_⟩
  have hmlt : s.length % 65536 < s.length := by omega
  have hlen3 : (encodeVal (.String s)).length = (2 + s.length) + 1 := by
    simp [encodeVal, be16]; omega
  rw [decodeAmf, hlen3]
  have hle : s.length % 65536 ≤ s.length := Nat.le_of_lt hmlt
  cases hutf : utf8Valid (s.take (s.length % 65536)) with
  | true =>
    simp [encodeVal, decodeVal, readU8, MARKER_NUMBER, MARKER_BOOLEAN, MARKER_STRING,
      readU16_be16 (s.length % 65536) (by omega), readN, hle, hutf, List.append_assoc]
    omega
  | false =>
    simp [encodeVal, decodeVal, readU8, MARKER_NUMBER, MARKER_BOOLEAN, MARKER_STRING,
      readU16_be16 (s.length % 65536) (by omega), readN, hle, hutf, List.append_assoc]

/-- Witness for `amf0_string_overflow` at a 65536-byte string. -/
theorem amf0_string_overflow_witness :
    65535 < bigString.length ∧
      Option.map Prod.fst (decodeAmf (encodeVal (.String bigString))) ≠
        some (.String bigString) :=
  ⟨by simp only [bigString, List.length_replicate]; omega,
   (amf0_string_overflow bigString (by simp only [bigString, List.length_replicate]; omega)).2.2⟩

/-! ### Message queue behaviour (C1) -/

theorem pushAll_fills (ps : List RtmpPacket) : ∀ q : MessageQueue,
    q.current_size = q.channel.length → q.channel.length + ps.length ≤ q.max_size →
    MessageQueue.pushAll q ps = some
      { channel := q.channel ++ ps.map fun p => ⟨p, MessageQueue.get_priority p⟩
        priority_queue := q.priority_queue
        max_size := q.max_size
        current_size := q.channel.length + ps.length } := by
  induction ps with
  | nil =>
    intro q hsz hcap
    simp [MessageQueue.pushAll]
    cases q
    simp_all
  | cons p ps ih =>
    intro q hsz hcap
    simp only [List.length_cons] at hcap
    have hlt : ¬ q.max_size ≤ q.current_size := by omega
    have hstep := ih { q with
        channel := q.channel ++ [⟨p, MessageQueue.get_priority p⟩]
        current_size := q.current_size + 1 }
      (by simp [hsz]) (by simp; omega)
    simp only [MessageQueue.pushAll, MessageQueue.push, hlt, if_false]
    rw [hstep]
    simp only [Option.some.injEq, MessageQueue.mk.injEq, List.append_assoc, List.length_append,
      List.singleton_append, List.map_cons, List.length_singleton, List.length_cons, List.length_nil, hsz]
    refine ⟨trivial, trivial, trivial, by omega⟩

/-- Claim C1 (code evaluated at the failing input): after 1000 video packets
and then a control message are pushed into a queue of capacity 1001, `pop`
returns the first video packet, not the control message — the mpsc channel
behind push/pop is FIFO and the `priority_queue` heap is never consulted —
and the code's data/audio priority constants are 5 and 3, not the claimed
6 and 4. -/
theorem queue_fifo_ignores_priority :
    (match MessageQueue.pushAll (MessageQueue.new 1001)
        (List.replicate 1000 videoPacketEx ++ [controlPacketEx]) with
     | some q => q.pop.2
     | none => none) = some videoPacketEx ∧
    videoPacketEx ≠ controlPacketEx ∧
    MessageQueue.get_priority controlPacketEx = 10 ∧
    MessageQueue.get_priority dataPacketEx = 5 ∧
    MessageQueue.get_priority audioPacketEx = 3 ∧
    MessageQueue.get_priority videoPacketEx = 2 := by
  have h := pushAll_fills (List.replicate 1000 videoPacketEx ++ [controlPacketEx])
    (MessageQueue.new 1001) (by simp [MessageQueue.new])
    (by simp only [MessageQueue.new, List.length_append, List.length_replicate,
          List.length_cons, List.length_nil]; omega)
  refine ⟨?_, by decide, by decide, by decide, by decide, by decide⟩
  rw [h]
  simp only [MessageQueue.new, List.map_append, List.map_replicate, List.nil_append]
  rw [show (1000 : Nat) = 999 + 1 from rfl, List.replicate_succ]
  rfl

/-! ### Chunk reader assembly invariants (C3) -/

theorem readChunkStep_inv (c : ChunkStreamContext) (h : RtmpHeader) (csize : Nat)
    (data : List Nat) (hinv : ctxInv c = true) (hdata : data.length = chunkDataSize c h csize) :
    ctxInv (readChunkStep c h data).1 = true ∧
      ∀ p, (readChunkStep c h data).2 = some p →
        p.payload.length = p.header.message_length := by
  by_cases hasm : c.is_assembling
  · have hrem : 0 < c.bytes_remaining := by
      simpa [ChunkStreamContext.is_assembling] using hasm
    rcases hch : c.current_header with _ | h0
    · exfalso
      simp [ctxInv, hch] at hinv
      omega
    · have hsum : c.message_buffer.length + c.bytes_remaining = h0.message_length := by
        simp [ctxInv, hch] at hinv
        exact hinv.2
      simp only [readChunkStep, chunkDataSize, hasm, if_true] at hdata ⊢
      by_cases hfin : c.bytes_remaining ≤ data.length
      · have hexact : data.length = c.bytes_remaining := by omega
        simp [ChunkStreamContext.add_chunk_data, hfin, hch, ctxInv]
        omega
      · simp [ChunkStreamContext.add_chunk_data, hfin, hch, ctxInv]
        omega
  · have hrem : c.bytes_remaining = 0 := by
      simp [ChunkStreamContext.is_assembling] at hasm
      omega
    simp only [readChunkStep, chunkDataSize, hasm, if_false] at hdata ⊢
    by_cases hfin : (c.start_message h).bytes_remaining ≤ data.length
    · simp only [ChunkStreamContext.start_message] at hfin hdata ⊢
      have hexact : data.length = h.message_length := by
        simp at hfin hdata ⊢
        omega
      simp [ChunkStreamContext.add_chunk_data, hfin, ctxInv, hexact]
    · simp only [ChunkStreamContext.start_message] at hfin hdata ⊢
      simp [ChunkStreamContext.add_chunk_data, hfin, ctxInv]
      omega

theorem readerRun_inv (c : ChunkStreamContext) (ps : List RtmpPacket)
    (c2 : ChunkStreamContext) (run : ReaderRun c ps c2) (hinv : ctxInv c = true) :
    ctxInv c2 = true ∧
      (ps.all fun p => p.payload.length == p.header.message_length) = true := by
  induction run with
  | nil c => exact ⟨hinv, rfl⟩
  | step c h csize data ps c2 hdata _tail ih =>
    obtain ⟨hstep, hpkt⟩ := readChunkStep_inv c h csize data hinv hdata
    obtain ⟨hfinal, hall⟩ := ih hstep
    refine ⟨hfinal, ?_⟩
    rcases hout : (readChunkStep c h data).2 with _ | p
    · simpa [hout] using hall
    · have := hpkt p hout
      simp [hout, hall, this]

/-- Claim C3: starting from a fresh chunk-stream context, after every
`read_chunk` step (which performs `start_message` when no message is in
progress and then `add_chunk_data` with data sized
`min(chunk_size_in, bytes_remaining)`), `bytes_remaining = 0` exactly when no
message is being assembled and `len(message_buffer) + bytes_remaining =
message_length` while one is; consequently every emitted packet satisfies
`len(payload) = header.message_length`. -/
theorem chunk_assembly_invariant (ps : List RtmpPacket) (c : ChunkStreamContext)
    (run : ReaderRun ChunkStreamContext.new ps c) :
    ctxInv c = true ∧
      (ps.all fun p => p.payload.length == p.header.message_length) = true :=
  readerRun_inv ChunkStreamContext.new ps c run rfl

/-- Witness for `chunk_assembly_invariant`: a 5-byte video message delivered
in a 3-byte chunk and then a 2-byte chunk. -/
theorem chunk_assembly_invariant_witness :
    ctxInv (readChunkStep (readChunkStep ChunkStreamContext.new headerLen5Ex [1, 2, 3]).1
        headerLen5Ex [4, 5]).1 = true ∧
      (((readChunkStep ChunkStreamContext.new headerLen5Ex [1, 2, 3]).2.toList ++
          ((readChunkStep (readChunkStep ChunkStreamContext.new headerLen5Ex [1, 2, 3]).1
              headerLen5Ex [4, 5]).2.toList ++ [])).all
        fun p => p.payload.length == p.header.message_length) = true :=
  chunk_assembly_invariant _ _
    (ReaderRun.step ChunkStreamContext.new headerLen5Ex 3 [1, 2, 3] _ _ (by decide)
      (ReaderRun.step (readChunkStep ChunkStreamContext.new headerLen5Ex [1, 2, 3]).1
        headerLen5Ex 3 [4, 5] [] _ (by decide)
        (ReaderRun.nil (readChunkStep (readChunkStep ChunkStreamContext.new headerLen5Ex
          [1, 2, 3]).1 headerLen5Ex [4, 5]).1)))

/-! ### Chunk writer format selection (C5, C9) -/

/-- Claim C5: whenever `get_header_bytes` produces a header (the packet is
actually written), the chosen format is the tightest format consistent with
the stored delta base for that chunk-stream id, exactly as `fmtSpec` states:
Type 3 on a full match, Type 2 when only the timestamp differs, Type 1 when
the message-stream id matches, Type 0 otherwise or without a base. -/
theorem chunk_writer_tightest_fmt (w : ChunkWriter) (packet : RtmpPacket) (fmt : Nat)
    (hdr : List Nat) (h : w.get_header_bytes packet = some (fmt, hdr)) :
    fmt = fmtSpec (lookupHeader w.prev_headers packet.header.chunk_stream_id) packet.header := by
  rcases hl : lookupHeader w.prev_headers packet.header.chunk_stream_id with _ | prev
  · simp only [ChunkWriter.get_header_bytes, hl, Option.some.injEq, Prod.mk.injEq] at h
    simp [fmtSpec, h.1.symm]
  · simp only [ChunkWriter.get_header_bytes, hl] at h
    split_ifs at h with h1 h2 h3 h4 h5 <;>
      simp only [Option.some.injEq, Prod.mk.injEq, reduceCtorEq] at h
    · obtain ⟨rfl, -⟩ := h
      simp [fmtSpec, h1.1, h1.2.1, h1.2.2, h2]
    · obtain ⟨rfl, -⟩ := h
      have hne : ¬ prev.timestamp = packet.header.timestamp := fun e => h2 e.symm
      simp [fmtSpec, h1.1, h1.2.1, h1.2.2, hne]
    · obtain ⟨rfl, -⟩ := h
      have hnt : ¬ (prev.message_type = packet.header.message_type ∧
          prev.message_length = packet.header.message_length) :=
        fun hc => h1 ⟨h4, hc.1, hc.2⟩
      have hnt1 : ¬ (prev.message_type = packet.header.message_type ∧
          prev.message_length = packet.header.message_length ∧
          prev.timestamp = packet.header.timestamp) :=
        fun hc => hnt ⟨hc.1, hc.2.1⟩
      simp [fmtSpec, hnt, hnt1, h4]
    · obtain ⟨rfl, -⟩ := h
      have hnc1 : ¬ (prev.message_stream_id = packet.header.message_stream_id ∧
          prev.message_type = packet.header.message_type ∧
          prev.message_length = packet.header.message_length ∧
          prev.timestamp = packet.header.timestamp) :=
        fun hc => h4 hc.1
      have hnc2 : ¬ (prev.message_stream_id = packet.header.message_stream_id ∧
          prev.message_type = packet.header.message_type ∧
          prev.message_length = packet.header.message_length) :=
        fun hc => h4 hc.1
      simp [fmtSpec, hnc1, hnc2, h4]

/-- Witness for `chunk_writer_tightest_fmt`: a base matching stream id, type
and length with an older timestamp selects Type 2. -/
theorem chunk_writer_tightest_fmt_witness :
    (2 : Nat) = fmtSpec (lookupHeader writer5Ex.prev_headers pkt5Ex.header.chunk_stream_id)
      pkt5Ex.header :=
  chunk_writer_tightest_fmt writer5Ex pkt5Ex 2 (encode_type2_header 40) rfl

/-- Claim C9: the timestamp-delta computation in `get_header_bytes` is an
unchecked u32 subtraction `packet.timestamp - prev.timestamp`: it underflows
(modelled by `none`, a panic in debug builds and a wrap modulo `2^32` in
release builds) on a concrete packet whose stored base has the same
message-stream id and a strictly larger timestamp, and the underflow branch
is unreachable exactly under the precondition that the timestamp is at least
the base's (per-csid non-decreasing timestamps). -/
theorem writer_delta_underflow :
    ChunkWriter.get_header_bytes writer9Ex pkt9Ex = none ∧
      (∀ w : ChunkWriter, ∀ packet : RtmpPacket, ∀ prev : RtmpHeader,
        lookupHeader w.prev_headers packet.header.chunk_stream_id = some prev →
        prev.timestamp ≤ packet.header.timestamp →
        (w.get_header_bytes packet).isSome = true) ∧
      (∀ w : ChunkWriter, ∀ packet : RtmpPacket,
        lookupHeader w.prev_headers packet.header.chunk_stream_id = none →
        (w.get_header_bytes packet).isSome = true) := by
  refine ⟨rfl, ?_, ?_⟩
  · intro w packet prev hl hts
    simp only [ChunkWriter.get_header_bytes, hl]
    split_ifs <;> simp_all
  · intro w packet hl
    simp [ChunkWriter.get_header_bytes, hl]

/-- Witness for `writer_delta_underflow` at a base with an older timestamp. -/
theorem writer_delta_underflow_witness :
    (ChunkWriter.get_header_bytes writer5Ex pkt5Ex).isSome = true :=
  writer_delta_underflow.2.1 writer5Ex pkt5Ex (RtmpHeader.new 1000 3 MSG_TYPE_VIDEO 1 6)
    rfl (by decide)

/-! ### Chunk writer continuation chunks (C6) -/

theorem writeChunksLoop_eq (cs_id csPred : Nat) : ∀ (n : Nat) (l : List Nat), l.length ≤ n →
    writeChunksLoop cs_id csPred l =
      (chunksOfSpec csPred l).flatMap (fun seg => encode_basic_header 3 cs_id ++ seg) := by
  intro n
  induction n with
  | zero =>
    intro l hl
    have : l = [] := by cases l <;> simp_all
    subst this
    simp [writeChunksLoop, chunksOfSpec]
  | succ n ih =>
    intro l hl
    cases l with
    | nil => simp [writeChunksLoop, chunksOfSpec]
    | cons b rest =>
      have hrec := ih (List.drop csPred rest) (by simp [List.length_drop] at *; omega)
      simp [writeChunksLoop, chunksOfSpec, hrec]

/-- Claim C6 (amended): every chunk the writer emits after the first consists
of exactly a Type-3 basic header followed by the next payload slice — the
4-byte extended timestamp is **not** repeated on continuation chunks, even
when the first chunk's header used the `0xFFFFFF` indicator. -/
theorem writer_type3_chunks_shape (w : ChunkWriter) (packet : RtmpPacket) (fmt : Nat)
    (hdr : List Nat) (hcs : w.chunk_size_out ≠ 0)
    (h : w.get_header_bytes packet = some (fmt, hdr)) :
    w.create_chunks packet = some
      (encode_basic_header fmt packet.header.chunk_stream_id ++ hdr ++
        List.take w.chunk_size_out packet.payload ++
        (chunksOfSpec (w.chunk_size_out - 1)
            (List.drop w.chunk_size_out packet.payload)).flatMap
          (fun seg => encode_basic_header 3 packet.header.chunk_stream_id ++ seg)) := by
  simp [ChunkWriter.create_chunks, hcs, h,
    writeChunksLoop_eq packet.header.chunk_stream_id (w.chunk_size_out - 1)
      (List.drop w.chunk_size_out packet.payload).length
      (List.drop w.chunk_size_out packet.payload) le_rfl]

/-- Witness for `writer_type3_chunks_shape` at the concrete extended-timestamp
packet split into two chunks. -/
theorem writer_type3_chunks_shape_witness :
    ChunkWriter.create_chunks writer6Ex pkt6Ex = some
      (encode_basic_header 0 pkt6Ex.header.chunk_stream_id ++ encode_type0_header pkt6Ex ++
        List.take 128 pkt6Ex.payload ++
        (chunksOfSpec 127 (List.drop 128 pkt6Ex.payload)).flatMap
          (fun seg => encode_basic_header 3 pkt6Ex.header.chunk_stream_id ++ seg)) :=
  writer_type3_chunks_shape writer6Ex pkt6Ex 0 (encode_type0_header pkt6Ex)
    (by decide) rfl

/-- Claim C6, counterexample to the claim as stated: the 130-byte message
with timestamp `0x01000000` is written as a Type-0 chunk whose header carries
`FF FF FF` plus the 4-byte extended timestamp, followed by a continuation
chunk that is exactly the Type-3 basic header `0xC6` and the 2 remaining
payload bytes — not the extended timestamp bytes `01 00 00 00` the claim
requires before the payload. -/
theorem writer_type3_no_ext_timestamp_counterexample :
    ChunkWriter.create_chunks writer6Ex pkt6Ex = some
      ([6, 255, 255, 255, 0, 0, 130, 9, 1, 0, 0, 0, 1, 0, 0, 0] ++
        List.replicate 128 7 ++ [198, 7, 7]) ∧
      List.drop 144 ((ChunkWriter.create_chunks writer6Ex pkt6Ex).getD []) = [198, 7, 7] ∧
      [198, 7, 7] ≠ [198] ++ be32 pkt6Ex.header.timestamp ++ [7, 7] := by
  have h1 : writeChunksLoop 6 127 (List.replicate 2 7) =
      encode_basic_header 3 6 ++ List.replicate 2 7 := by
    rw [show List.replicate 2 7 = 7 :: [7] from rfl]
    rw [writeChunksLoop]
    rw [List.drop_eq_nil_of_le (by simp)]
    rw [writeChunksLoop]
    simp [List.take_of_length_le]
  have hout : ChunkWriter.create_chunks writer6Ex pkt6Ex = some
      ([6, 255, 255, 255, 0, 0, 130, 9, 1, 0, 0, 0, 1, 0, 0, 0] ++
        List.replicate 128 7 ++ [198, 7, 7]) := by
    simp only [ChunkWriter.create_chunks, writer6Ex, pkt6Ex, ChunkWriter.get_header_bytes,
      lookupHeader, RtmpHeader.new]
    rw [List.take_replicate, List.drop_replicate]
    norm_num
    rw [h1]
    simp [encode_type0_header, encode_basic_header, be24, be32, le32, List.replicate_succ,
      RtmpHeader.new, MSG_TYPE_VIDEO]
  refine ⟨hout, ?_, ?_⟩
  · rw [hout]
    simp only [Option.getD_some]
    rw [show (144 : Nat) =
      (([6, 255, 255, 255, 0, 0, 130, 9, 1, 0, 0, 0, 1, 0, 0, 0] ++
        List.replicate 128 7 : List Nat)).length from by simp]
    exact List.drop_left _ _
  · decide

/-! ### Publisher fan-out re-headering (C7) -/

/-- Claim C7 (amended): every packet the fan-out hands a subscriber carries
that subscriber's stream id.  Live packets (`distribute_packet`), the cached
metadata packet and the cached GOP packets are re-headered **only** in
`message_stream_id` (payload, timestamp, length, type and chunk-stream id
unchanged); the cached audio/video sequence headers, however, are rebuilt by
`make_audio_packet` / `make_video_packet` from the stored payload with
timestamp 0 and the conventional audio/video chunk-stream id, so for them
only the payload and message type survive. -/
theorem fanout_reheader :
    (∀ packet : RtmpPacket, ∀ sid : Nat,
      (setMessageStreamId packet sid).payload = packet.payload ∧
      (setMessageStreamId packet sid).header.timestamp = packet.header.timestamp ∧
      (setMessageStreamId packet sid).header.message_length = packet.header.message_length ∧
      (setMessageStreamId packet sid).header.message_type = packet.header.message_type ∧
      (setMessageStreamId packet sid).header.chunk_stream_id = packet.header.chunk_stream_id ∧
      (setMessageStreamId packet sid).header.message_stream_id = sid) ∧
    (∀ subs : List SubscriberHandle, ∀ packet : RtmpPacket,
      distribute_packet subs packet = subs.map fun s => setMessageStreamId packet s.stream_id) ∧
    (∀ p : PublisherState, ∀ sid : Nat, ∀ q : RtmpPacket,
      q ∈ send_initial_packets p sid → q.header.message_stream_id = sid) ∧
    (∀ p : PublisherState, ∀ sid : Nat, ∀ config : List Nat,
      p.video_codec_config = some config →
        make_video_packet config 0 sid ∈ send_initial_packets p sid) := by
  refine ⟨?_, ?_, ?_, ?_⟩
  · intro packet sid
    simp [setMessageStreamId]
  · intro subs packet
    rfl
  · intro p sid q hq
    unfold send_initial_packets at hq
    rcases List.mem_append.mp hq with h1 | hgop
    · rcases List.mem_append.mp h1 with h2 | hvc
      · rcases List.mem_append.mp h2 with hmeta | hac
        · revert hmeta
          cases p.metadata_packet <;> intro hmeta <;> simp at hmeta
          subst hmeta
          simp [setMessageStreamId]
        · revert hac
          cases p.audio_codec_config <;> intro hac <;> simp at hac
          subst hac
          simp [make_audio_packet, RtmpHeader.audio, RtmpHeader.new]
      · revert hvc
        cases p.video_codec_config <;> intro hvc <;> simp at hvc
        subst hvc
        simp [make_video_packet, RtmpHeader.video, RtmpHeader.new]
    · obtain ⟨g, _, rfl⟩ := List.mem_map.mp hgop
      simp [setMessageStreamId]
  · intro p sid config hcfg
    unfold send_initial_packets
    rw [hcfg]
    simp

/-- Witness for `fanout_reheader`: the GOP packet handed to subscriber 7
after processing the sequence-header packet carries stream id 7. -/
theorem fanout_reheader_witness :
    (setMessageStreamId seqHeaderPacketEx 7).header.message_stream_id = 7 :=
  fanout_reheader.2.2.1 (process_video_state emptyPublisherEx seqHeaderPacketEx) 7
    (setMessageStreamId seqHeaderPacketEx 7) (by decide)

/-- Claim C7, counterexample to the claim as stated: after the publisher
processes an AVC sequence header with timestamp 100 on chunk stream 9, the
initial packets for a subscriber with stream id 7 contain a rebuilt
sequence-header packet whose timestamp is 0 and whose chunk-stream id is the
conventional 6 — not byte-identical header fields as the claim requires. -/
theorem fanout_seq_header_counterexample :
    send_initial_packets (process_video_state emptyPublisherEx seqHeaderPacketEx) 7 =
      [make_video_packet [0x17, 0x00] 0 7, setMessageStreamId seqHeaderPacketEx 7] ∧
      (make_video_packet [0x17, 0x00] 0 7).header.timestamp = 0 ∧
      seqHeaderPacketEx.header.timestamp = 100 ∧
      (make_video_packet [0x17, 0x00] 0 7).header.chunk_stream_id = CHUNK_STREAM_VIDEO ∧
      seqHeaderPacketEx.header.chunk_stream_id = 9 := by
  refine ⟨by decide, by decide, by decide, by decide, by decide⟩

/-! ### Handshake digest detection (C8) -/

/-- Claim C8 (amended): with a full 1528-byte random field, `detect_format`
classifies C1 as a digest variant exactly when the four FMS signature bytes
`05 00 01 01` sit at bytes 8..12 of C1's body (the first four bytes of the
random field) or at bytes 772..776 of the body (offset 764..768 of the
random field) — that is, at the claimed offsets shifted past the 8-byte
timestamp/zero prefix. -/
theorem detect_format_characterization (c : C0C1) (hlen : c.random_data.length = 1528) :
    (C0C1.detect_format c ≠ HandshakeFormat.Simple) ↔
      (List.take 4 (List.drop 8 (c1Body c)) = FMS_VERSION ∨
        List.take 4 (List.drop 772 (c1Body c)) = FMS_VERSION) := by
  have hpre : ((be32 c.timestamp ++ be32 c.zero) : List Nat).length = 8 := by simp [be32]
  have h8 : List.drop 8 (c1Body c) = c.random_data := by
    rw [c1Body, List.append_assoc, show (8 : Nat) =
      ((be32 c.timestamp ++ be32 c.zero) : List Nat).length from hpre.symm,
      ← List.append_assoc, List.drop_left]
  have h772 : List.drop 772 (c1Body c) = List.drop 764 c.random_data := by
    have : List.drop 772 (c1Body c) = List.drop 764 (List.drop 8 (c1Body c)) := by
      rw [List.drop_drop]
    rw [this, h8]
  rw [h8, h772]
  unfold C0C1.detect_format
  by_cases h1 : List.take 4 c.random_data = FMS_VERSION
  · simp [hlen, h1]
  · by_cases h2 : List.take 4 (List.drop 764 c.random_data) = FMS_VERSION
    · simp [hlen, h1, h2]
    · simp [hlen, h1, h2]

set_option maxRecDepth 40000 in
/-- Witness for `detect_format_characterization` at a C1 whose random field
begins with the signature. -/
theorem detect_format_characterization_witness :
    (C0C1.detect_format c1SignatureAtRandom0 ≠ HandshakeFormat.Simple) ↔
      (List.take 4 (List.drop 8 (c1Body c1SignatureAtRandom0)) = FMS_VERSION ∨
        List.take 4 (List.drop 772 (c1Body c1SignatureAtRandom0)) = FMS_VERSION) :=
  detect_format_characterization c1SignatureAtRandom0 (by decide)

set_option maxRecDepth 40000 in
/-- Claim C8, counterexample to the claim as stated: a C1 carrying the FMS
signature at bytes 4..8 of its body (and zeros in the random field) is a
digest handshake by the claim's classification, yet `detect_format` returns
`Simple` — the code checks the random field at offsets 0..4 and 764..768,
i.e. body offsets 8..12 and 772..776. -/
theorem detect_format_offsets_counterexample :
    claimDigestClassification c1SignatureAtBody4 = true ∧
      C0C1.detect_format c1SignatureAtBody4 = HandshakeFormat.Simple := by
  refine ⟨by decide, by decide⟩

/-! ### Publish handler duplicate-name rejection (C2) -/

/-- Claim C2 (amended): when a publish command names a stream the registry
already owns, the handler returns `Err(Error::Stream("Stream NAME is already
being published"))` before any mutation: no packet is sent (in particular no
`NetStream.Publish.BadName` onStatus — that code does not exist anywhere in
the source), the registry and the rest of the context are left unchanged,
and the error propagates out of the dispatcher, terminating the connection's
processing loop rather than leaving the connection serviced. -/
theorem publish_duplicate_rejected_with_stream_error
    (ctx : ConnectionContext) (cmd : RtmpCommand) (stream_name : List Nat) (sid now : Nat)
    (reg : PublisherRegistry)
    (hname : (cmd.arguments.get? 0).bind Amf0Value.as_string = some stream_name)
    (hsid : (ctx.get_property (strBytes ("stream_id"))).bind parseU32 = some sid)
    (hreg : ctx.registry = some reg)
    (hpub : reg.is_publishing stream_name = true) :
    publishHandle cmd ctx now =
      (Except.error (Error.Stream (alreadyPublishedMsg stream_name)), ctx) := by
  unfold publishHandle
  rw [hname, hsid]
  unfold validate_publish
  rw [hreg]
  simp [hpub]

/-- Witness for `publish_duplicate_rejected_with_stream_error` at the
concrete duplicate publish of `cam1`. -/
theorem publish_duplicate_rejected_witness :
    publishHandle publishCmdEx ctxOwningCam1 5 =
      (Except.error (Error.Stream (alreadyPublishedMsg (strBytes ("cam1")))), ctxOwningCam1) :=
  publish_duplicate_rejected_with_stream_error ctxOwningCam1 publishCmdEx
    (strBytes ("cam1")) 1 5
    ⟨[(strBytes ("cam1"),
      { connection_id := "conn-0"
        stream_name := strBytes ("cam1")
        stream_id := 1
        started_at := 0
        subscriber_count := 0 })]⟩
    rfl rfl rfl rfl

/-- Claim C2, counterexample to the claim as stated: on a duplicate publish
the handler's outcome is a `Stream` error with the context untouched — no
onStatus packet with code `NetStream.Publish.BadName` is ever sent (`sent`
stays empty), and the error is propagated (connection-fatal) instead of the
connection remaining serviced. -/
theorem publish_duplicate_no_badname_counterexample :
    publishHandle publishCmdEx ctxOwningCam1 0 =
      (Except.error (Error.Stream (alreadyPublishedMsg (strBytes ("cam1")))), ctxOwningCam1) ∧
      (publishHandle publishCmdEx ctxOwningCam1 0).2.sent = [] := by
  refine ⟨rfl, rfl⟩

end RustRTMP
